import Mathlib

/-!
Verification of the adk-sim-plugin session/event broker against its
natural-language specification.  The Python sources under
`src/adk_agent_sim/` are shallowly embedded as Lean definitions:
dictionaries become total maps with explicit defaults (mirroring
`defaultdict` semantics), `asyncio.Queue`s become lists, and fallible
calls return `Except`/`Option` values.
-/

namespace AdkSim

/-- Map update for string-keyed dictionaries (`d[k] = v`). -/
def updateMap {α : Type} (f : String → α) (k : String) (v : α) : String → α :=
  fun k' => if k' = k then v else f k'

/-- Payload of a `SessionEvent` (the proto oneof: llm_request /
llm_response / history_complete).  The request/response bodies are opaque
to the broker, so they are carried as plain strings. -/
inductive Payload where
  | request (body : String)
  | response (body : String)
  | historyComplete (event_count : Nat)
deriving DecidableEq, Repr

/-- The `SessionEvent` proto: promoted fields plus the oneof payload. -/
structure SessionEvent where
  event_id : String
  session_id : String
  turn_id : String
  agent_name : String
  payload : Payload
deriving DecidableEq, Repr

instance : Inhabited SessionEvent :=
  ⟨⟨"", "", "", "", .historyComplete 0⟩⟩

/-! ## RequestQueue (src/adk_agent_sim/server/queue.py)

`_queues` maps a session id to its FIFO list (head first, matching
`asyncio.Queue` order) and `_peeked` holds the event popped by
`get_current` but not yet consumed by `dequeue`.  A `defaultdict` entry
that is absent behaves like an empty queue, so both dictionaries are
embedded as total maps. -/

structure RequestQueue where
  queues : String → List SessionEvent
  peeked : String → Option SessionEvent

namespace RequestQueue

/-- `RequestQueue.__init__`: empty per-session queues, nothing peeked. -/
def init : RequestQueue := ⟨fun _ => [], fun _ => none⟩

/-- `RequestQueue.enqueue`: append the event to its own session's queue. -/
def enqueue (q : RequestQueue) (e : SessionEvent) : RequestQueue :=
  { q with queues := updateMap q.queues e.session_id (q.queues e.session_id ++ [e]) }

/-- `RequestQueue.dequeue`: return the peeked event first if present,
otherwise pop the queue head.  An empty queue makes the Python coroutine
block forever, embedded here as the `none` result with unchanged state. -/
def dequeue (q : RequestQueue) (sid : String) : Option SessionEvent × RequestQueue :=
  match q.peeked sid with
  | some e => (some e, { q with peeked := updateMap q.peeked sid none })
  | none =>
    match q.queues sid with
    | [] => (none, q)
    | e :: rest => (some e, { q with queues := updateMap q.queues sid rest })

/-- `RequestQueue.get_current`: return the already-peeked event if any;
else `none` on an empty queue; else pop the head and stash it in
`_peeked`. -/
def get_current (q : RequestQueue) (sid : String) : Option SessionEvent × RequestQueue :=
  match q.peeked sid with
  | some e => (some e, q)
  | none =>
    match q.queues sid with
    | [] => (none, q)
    | e :: rest =>
      (some e, { q with queues := updateMap q.queues sid rest,
                        peeked := updateMap q.peeked sid (some e) })

/-- `RequestQueue.is_empty`. -/
def is_empty (q : RequestQueue) (sid : String) : Bool :=
  !(q.peeked sid).isSome && (q.queues sid).isEmpty

/-- The events a session still holds, in consumption order: the peeked
event (if any) followed by the queued ones. -/
def pending (q : RequestQueue) (sid : String) : List SessionEvent :=
  (q.peeked sid).toList ++ q.queues sid

/-- An operation an interleaved caller may perform on one session. -/
inductive QueueOp where
  | peek
  | deq
deriving DecidableEq, Repr

/-- Run a list of peek/dequeue operations against one session,
returning the final state. -/
def runOps (q : RequestQueue) (sid : String) : List QueueOp → RequestQueue
  | [] => q
  | .peek :: ops => runOps (get_current q sid).2 sid ops
  | .deq :: ops => runOps (dequeue q sid).2 sid ops

/-- The events actually handed out by the `dequeue` operations of a run,
in the order they were returned. -/
def dequeued (q : RequestQueue) (sid : String) : List QueueOp → List SessionEvent
  | [] => []
  | .peek :: ops => dequeued (get_current q sid).2 sid ops
  | .deq :: ops =>
    match dequeue q sid with
    | (some e, q') => e :: dequeued q' sid ops
    | (none, q') => dequeued q' sid ops

end RequestQueue

/-! ## EventBroadcaster (src/adk_agent_sim/server/broadcaster.py)

`_subscribers` maps a session id to the set of subscriber
`asyncio.Queue`s.  Each subscriber queue is embedded as the list of
events delivered to it so far (in delivery order); the set of queues is
embedded as a list so that an individual subscriber can be named by its
index, which every operation preserves.  An absent `defaultdict` entry
behaves like the empty set. -/

/-- The events of a command sequence addressed to one session, in order
of occurrence. -/
def eventsFor (sid : String) (cmds : List (String × SessionEvent)) : List SessionEvent :=
  cmds.filterMap (fun c => if c.1 = sid then some c.2 else none)

structure EventBroadcaster where
  subscribers : String → List (List SessionEvent)

namespace EventBroadcaster

/-- `EventBroadcaster.__init__`: no subscribers anywhere. -/
def init : EventBroadcaster := ⟨fun _ => []⟩

/-- `EventBroadcaster.subscribe` (registration part): add a fresh, empty
subscriber queue for the session.  The src version takes no history
function and replays nothing: a new subscriber starts with an empty
queue. -/
def subscribe (b : EventBroadcaster) (sid : String) : EventBroadcaster :=
  ⟨updateMap b.subscribers sid (b.subscribers sid ++ [[]])⟩

/-- `EventBroadcaster.broadcast`: return immediately when the session has
no subscriber entry, otherwise push the event onto every subscriber
queue of that session. -/
def broadcast (b : EventBroadcaster) (sid : String) (e : SessionEvent) : EventBroadcaster :=
  if (b.subscribers sid).isEmpty then b
  else ⟨updateMap b.subscribers sid ((b.subscribers sid).map (fun ch => ch ++ [e]))⟩

/-- `EventBroadcaster.subscriber_count`. -/
def subscriber_count (b : EventBroadcaster) (sid : String) : Nat :=
  (b.subscribers sid).length

/-- Run a sequence of broadcasts, each addressed to its own session. -/
def runBroadcasts (b : EventBroadcaster) : List (String × SessionEvent) → EventBroadcaster
  | [] => b
  | (sid, e) :: rest => runBroadcasts (broadcast b sid e) rest

end EventBroadcaster

/-! ## Atomic replay-then-live broadcaster (spec §4.4)

The broadcaster with history replay is `adk_sim_server.broadcaster`,
whose source file is not part of the tree here — only its unit tests
are (src/server/tests/unit/test_broadcaster.py).  It is therefore
modelled from the spec: `Subscribe(session_id, history_fn)` (1) calls
`history_fn`, (2) registers a fresh delivery channel, with (1)+(2) held
under a per-session lock so no broadcast interleaves — embedded as one
atomic step — then yields the history, one `HistoryComplete` marker
carrying the history length, and the live events in broadcast order. -/

/-- Modelled from the spec: one subscriber of the replaying broadcaster —
the history list it was given at registration and the live events
delivered to its channel afterwards. -/
structure BrokerSubscriber where
  history : List SessionEvent
  live : List SessionEvent
deriving DecidableEq, Repr

instance : Inhabited BrokerSubscriber := ⟨⟨[], []⟩⟩

/-- Modelled from the spec: broker state — the persisted per-session
event log (the store backing `history_fn`) and the registered
subscribers per session. -/
structure SimBroker where
  store : String → List SessionEvent
  subs : String → List BrokerSubscriber

namespace SimBroker

/-- Modelled from the spec: an empty broker. -/
def init : SimBroker := ⟨fun _ => [], fun _ => []⟩

/-- Modelled from the spec: the synthetic `HistoryComplete` marker event,
never persisted, with `event_count` the number of replayed events. -/
def historyCompleteEvent (sid : String) (n : Nat) : SessionEvent :=
  ⟨"", sid, "", "", .historyComplete n⟩

/-- Modelled from the spec: `Subscribe` — fetch the session's persisted
events as history and register a fresh channel, as one atomic step (the
per-session lock excludes concurrent broadcasts between the two). -/
def subscribeStep (br : SimBroker) (sid : String) : SimBroker :=
  { br with subs := updateMap br.subs sid (br.subs sid ++ [⟨br.store sid, []⟩]) }

/-- Modelled from the spec: `SubmitRequest`/`SubmitDecision` — persist
the event, then broadcast it to every currently-registered channel of
its session. -/
def submitStep (br : SimBroker) (sid : String) (e : SessionEvent) : SimBroker :=
  { store := updateMap br.store sid (br.store sid ++ [e]),
    subs := updateMap br.subs sid
      ((br.subs sid).map (fun sub => { sub with live := sub.live ++ [e] })) }

/-- Modelled from the spec: run a sequence of submissions. -/
def runSubmits (br : SimBroker) : List (String × SessionEvent) → SimBroker
  | [] => br
  | (sid, e) :: rest => runSubmits (submitStep br sid e) rest

/-- Modelled from the spec: the full event sequence a subscriber's
stream yields — replayed history, one `HistoryComplete` marker counting
it, then the live events. -/
def delivered (sid : String) (sub : BrokerSubscriber) : List SessionEvent :=
  sub.history ++ historyCompleteEvent sid sub.history.length :: sub.live

end SimBroker

/-! ## SimulatorClient (src/adk_agent_sim/plugin/client.py)

The grpclib `Channel` is embedded as the host/port pair it is built
from; the `SimulatorServiceStub` wraps the channel, so it is embedded as
the channel it was constructed over.  RPC-issuing methods return an
`Except` (raised `RuntimeError` messages on the error side) paired with
the list of RPC request messages actually sent, so that "no request is
sent to the server" is a provable statement. -/

structure Channel where
  host : String
  port : Nat
deriving DecidableEq, Repr

structure SubmitRequestRequest where
  session_id : String
  turn_id : String
  agent_name : String
  request : String
deriving DecidableEq, Repr

structure SubscribeRequest where
  session_id : String
  client_id : String
deriving DecidableEq, Repr

structure SimulatorClient where
  channel : Option Channel
  stub : Option Channel
  session_id : Option String
deriving DecidableEq, Repr

namespace SimulatorClient

/-- `SimulatorClient.__init__`: no channel, no stub, no session. -/
def mkNew : SimulatorClient := ⟨none, none, none⟩

/-- `SimulatorClient.is_connected`. -/
def is_connected (c : SimulatorClient) : Bool := c.channel.isSome

/-- `SimulatorClient.close`: only when a channel exists, close it and
clear both the channel and the stub; otherwise do nothing.  The
session id is not touched. -/
def close (c : SimulatorClient) : SimulatorClient :=
  match c.channel with
  | some _ => { c with channel := none, stub := none }
  | none => c

def notConnectedMsg : String := "Client is not connected. Call connect() first."

def noSessionMsg : String := "No session created. Call create_session() first."

/-- `SimulatorClient.submit_request`: raise when there is no stub, then
when there is no session id; otherwise build the `SubmitRequestRequest`
from the stored session id, send it, and return the server's event_id.
`server` stands for the remote SimulatorService. -/
def submit_request (server : SubmitRequestRequest → String) (c : SimulatorClient)
    (turn_id agent_name request : String) :
    Except String String × List SubmitRequestRequest :=
  match c.stub with
  | none => (.error notConnectedMsg, [])
  | some _ =>
    match c.session_id with
    | none => (.error noSessionMsg, [])
    | some sid =>
      let req : SubmitRequestRequest := ⟨sid, turn_id, agent_name, request⟩
      (.ok (server req), [req])

/-- `SimulatorClient.subscribe`: raise when there is no stub, then when
there is no session id; otherwise open the stream with a
`SubscribeRequest` carrying the stored session id and the caller's
client id (or a fresh uuid when the caller passed none or an empty
string, Python truthiness of `client_id or str(uuid4())`). -/
def subscribe (c : SimulatorClient) (client_id : Option String) (fresh_uuid : String) :
    Except String SubscribeRequest × List SubscribeRequest :=
  match c.stub with
  | none => (.error notConnectedMsg, [])
  | some _ =>
    match c.session_id with
    | none => (.error noSessionMsg, [])
    | some sid =>
      let cid := match client_id with
        | none => fresh_uuid
        | some s => if s = "" then fresh_uuid else s
      let req : SubscribeRequest := ⟨sid, cid⟩
      (.ok req, [req])

end SimulatorClient

/-! ## SessionRepository (src/adk_agent_sim/persistence/session_repo.py)

A stored session is one row of the `sessions` table: the promoted
columns `id`, `created_at` (integer Unix timestamp) and `status`, with
the proto blob standing for the row itself.  Raised exceptions surface
as `Except.error`.  The page-token helpers model the Python builtins
they call: `base64.b64encode`/`b64decode`, `str(int)` and `int(str)`.
Note the staged `Database.fetch_all` (database.py line 66) is declared
`fetch_all(self, query)` with no `values` parameter, while `list_all`
(session_repo.py line 120) calls `fetch_all(query, values)` — so every
call reaching the fetch raises TypeError before any SQL runs. -/

structure SessionRow where
  id : String
  created_at : Int
  description : String
  status : String
deriving DecidableEq, Repr

instance : Inhabited SessionRow := ⟨⟨"", 0, "", ""⟩⟩

/-- Value of a base64 alphabet character (A-Z, a-z, 0-9, +, /), none
for anything else. -/
def charSextet (c : Char) : Option Nat :=
  let n := c.toNat
  if 65 ≤ n ∧ n ≤ 90 then some (n - 65)
  else if 97 ≤ n ∧ n ≤ 122 then some (n - 97 + 26)
  else if 48 ≤ n ∧ n ≤ 57 then some (n - 48 + 52)
  else if n = 43 then some 62
  else if n = 47 then some 63
  else none

/-- Base64 alphabet character of a sextet value. -/
def sextetChar (n : Nat) : Char :=
  if n < 26 then Char.ofNat (65 + n)
  else if n < 52 then Char.ofNat (97 + (n - 26))
  else if n < 62 then Char.ofNat (48 + (n - 52))
  else if n = 62 then Char.ofNat 43
  else Char.ofNat 47

/-- Standard base64 encoding of a byte list (3 bytes to 4 characters,
with `=` padding), as `base64.b64encode` produces. -/
def b64encodeBytes : List Nat → List Char
  | [] => []
  | [x] => [sextetChar (x / 4), sextetChar (x % 4 * 16), '=', '=']
  | [x, y] =>
    [sextetChar (x / 4), sextetChar (x % 4 * 16 + y / 16), sextetChar (y % 16 * 4), '=']
  | x :: y :: z :: rest =>
    sextetChar (x / 4) :: sextetChar (x % 4 * 16 + y / 16)
      :: sextetChar (y % 16 * 4 + z / 64) :: sextetChar (z % 64) :: b64encodeBytes rest

/-- A base64 input character classified for decoding. -/
inductive B64Tok where
  | val (n : Nat)
  | pad
  | bad
deriving DecidableEq, Repr

def tokOf (c : Char) : B64Tok :=
  match charSextet c with
  | some n => .val n
  | none => if c = '=' then .pad else .bad

/-- Decode classified base64 characters in groups of four; a trailing
`xx==` group yields one byte and `xxx=` two; anything malformed is an
error. -/
def decodeToks : List B64Tok → Option (List Nat)
  | [] => some []
  | .val a :: .val b :: .pad :: .pad :: [] => some [a * 4 + b / 16]
  | .val a :: .val b :: .val c :: .pad :: [] =>
    some [a * 4 + b / 16, b % 16 * 16 + c / 4]
  | .val a :: .val b :: .val c :: .val d :: rest =>
    (decodeToks rest).map
      (fun tl => (a * 4 + b / 16) :: (b % 16 * 16 + c / 4) :: (c % 4 * 64 + d) :: tl)
  | _ => none

/-- A character `base64.b64decode` keeps with default validation:
alphabet members and padding; everything else is discarded. -/
def keepB64 (c : Char) : Bool := (charSextet c).isSome || c = '='

/-- Python `base64.b64decode(s)` with default validation: characters
outside the alphabet and padding are discarded first, then the remaining
groups of four are decoded; malformed lengths or padding raise (none). -/
def b64decodeStr (s : String) : Option (List Nat) :=
  decodeToks ((s.data.filter keepB64).map tokOf)

/-- Python `base64.b64encode(s.encode("utf-8")).decode("utf-8")` for the
ASCII strings this module feeds it. -/
def b64encodeStr (s : String) : String :=
  ⟨b64encodeBytes (s.data.map Char.toNat)⟩

/-- Base-10 digits of a natural number, least significant first, with
explicit fuel (any fuel of at least n works). -/
def natDigitsRevFuel : Nat → Nat → List Nat
  | 0, _ => []
  | fuel + 1, n => if n = 0 then [] else n % 10 :: natDigitsRevFuel fuel (n / 10)

/-- Base-10 digits of a natural number, least significant first. -/
def natDigitsRev (n : Nat) : List Nat := natDigitsRevFuel n n

/-- Value of a least-significant-first digit list. -/
def ofDigitsLE : List Nat → Nat
  | [] => 0
  | d :: rest => d + 10 * ofDigitsLE rest

/-- Big-endian decimal digit characters of a natural number. -/
def natToDigitChars (n : Nat) : List Char :=
  if n = 0 then [Char.ofNat 48]
  else (natDigitsRev n).reverse.map (fun d => Char.ofNat (48 + d))

/-- Python `str(i)` for an integer. -/
def intToDecimalStr (i : Int) : String :=
  if i < 0 then ⟨Char.ofNat 45 :: natToDigitChars i.natAbs⟩
  else ⟨natToDigitChars i.toNat⟩

def trimSpaces (cs : List Char) : List Char :=
  ((cs.dropWhile (fun c => c = ' ')).reverse.dropWhile (fun c => c = ' ')).reverse

def isDigitChar (c : Char) : Bool := decide (48 ≤ c.toNat ∧ c.toNat ≤ 57)

def digitsVal (cs : List Char) : Nat :=
  cs.foldl (fun a c => a * 10 + (c.toNat - 48)) 0

def parseDigits (cs : List Char) : Option Nat :=
  if cs ≠ [] ∧ cs.all isDigitChar then some (digitsVal cs) else none

/-- Python `int(s)`: surrounding spaces stripped, an optional sign, then
decimal digits; anything else raises ValueError (none). -/
def pyInt (s : String) : Option Int :=
  match trimSpaces s.data with
  | [] => none
  | c :: rest =>
    if c = '-' then (parseDigits rest).map (fun n => -(Int.ofNat n))
    else if c = '+' then (parseDigits rest).map Int.ofNat
    else (parseDigits (c :: rest)).map Int.ofNat

/-- Python `bytes.decode("utf-8")`, restricted to ASCII payloads (the
tokens this module produces are ASCII decimal strings; a multi-byte
payload is treated as undecodable — in Python a non-digit result makes
the subsequent `int()` raise just the same). -/
def bytesToUtf8Str (bs : List Nat) : Option String :=
  if bs.all (fun b => b < 128) then some ⟨bs.map Char.ofNat⟩ else none

/-- `int(base64.b64decode(page_token).decode("utf-8"))` — the cursor
timestamp of a page token, none when any step raises. -/
def decodeTokenTs (tok : String) : Option Int :=
  (b64decodeStr tok).bind (fun bs => (bytesToUtf8Str bs).bind pyInt)

/-- `base64.b64encode(str(last_ts).encode("utf-8")).decode("utf-8")`. -/
def encodeTokenTs (ts : Int) : String := b64encodeStr (intToDecimalStr ts)

namespace SessionRepository

/-- The `Database.fetch_all(query, values)` call of `list_all`
(session_repo.py line 120): the staged `Database.fetch_all`
(database.py line 66) is `fetch_all(self, query)` and accepts no
`values` argument, so the call raises TypeError before any SQL runs.
The table, cursor and limit the call meant to query are recorded as
(unused) arguments. -/
def fetch_all_query_values (_rows : List SessionRow) (_cursor : Option Int)
    (_limit : Nat) : Except String (List SessionRow) :=
  .error "TypeError"

/-- Truncation and next-token computation after the fetch: `has_more`
iff more than `page_size` rows came back; the page is the first
`page_size` rows; when more rows exist (and the page is non-empty) the
token is the base64 of the last returned row's `created_at`. -/
def pageResult (page_size : Nat) (fetched : List SessionRow) :
    List SessionRow × Option String :=
  if fetched.length > page_size ∧ fetched.take page_size ≠ [] then
    (fetched.take page_size,
     some (encodeTokenTs (((fetched.take page_size).getLast?).getD default).created_at))
  else (fetched.take page_size, none)

/-- `SessionRepository.list_all`: a truthy (non-empty) page token is
base64-decoded to the cursor timestamp — with no exception handler, so
an undecodable token raises ValueError — and then `page_size + 1` rows
are requested through `Database.fetch_all(query, values)`, which raises
TypeError on every path that reaches it (arity mismatch, see
`fetch_all_query_values`).  The post-fetch truncation and token logic
(`pageResult`, lines 121-133) is composed behind the fetch exactly as
in the source and is therefore never reached. -/
def list_all (rows : List SessionRow) (page_size : Nat) (page_token : Option String) :
    Except String (List SessionRow × Option String) :=
  match page_token with
  | some tok =>
    if tok = "" then
      (fetch_all_query_values rows none (page_size + 1)).map (pageResult page_size)
    else
      match decodeTokenTs tok with
      | none => .error "ValueError"
      | some c =>
        (fetch_all_query_values rows (some c) (page_size + 1)).map (pageResult page_size)
  | none => (fetch_all_query_values rows none (page_size + 1)).map (pageResult page_size)

/-- Drive `list_all` the way the pagination property does: start with no
token and keep calling with each returned token until none is returned
(or a call raises), collecting the pages.  The fuel bounds the page
count. -/
def paginateAux (rows : List SessionRow) (p : Nat) : Nat → Option String → List SessionRow
  | 0, _ => []
  | fuel + 1, tok =>
    match list_all rows p tok with
    | .error _ => []
    | .ok (page, none) => page
    | .ok (page, some t) => page ++ paginateAux rows p fuel (some t)

def paginateAll (rows : List SessionRow) (p : Nat) : List SessionRow :=
  paginateAux rows p (rows.length + 1) none

/-- `Database.execute` (src/adk_agent_sim/persistence/database.py lines
78-85): runs the statement — here the UPDATE of the matching row's
status — and returns None; the wrapper discards any driver result. -/
def database_execute_update (rows : List SessionRow) (sid status : String) :
    List SessionRow × Option Int :=
  (rows.map (fun r => if r.id = sid then { r with status := status } else r), none)

/-- Python `result > 0` where `result` may be None: comparing None with
an int raises TypeError. -/
def pyGtZero : Option Int → Except String Bool
  | some v => .ok (decide (v > 0))
  | none => .error "TypeError"

/-- `SessionRepository.update_status`: run the UPDATE through
`Database.execute` and return `result > 0`. -/
def update_status (rows : List SessionRow) (sid status : String) :
    Except String (Bool × List SessionRow) :=
  let res := database_execute_update rows sid status
  (pyGtZero res.2).map (fun b => (b, res.1))

end SessionRepository

-- ### Theorems ###

namespace RequestQueue

theorem get_current_fst (q : RequestQueue) (sid : String) :
    (get_current q sid).1 = (pending q sid).head? := by
  unfold get_current pending
  cases hp : q.peeked sid with
  | some e => simp
  | none => cases hq : q.queues sid <;> simp

theorem get_current_pending (q : RequestQueue) (sid : String) :
    pending (get_current q sid).2 sid = pending q sid := by
  unfold get_current pending
  cases hp : q.peeked sid with
  | some e => simp [hp]
  | none => cases hq : q.queues sid <;> simp [hp, hq, updateMap]

theorem get_current_frame (q : RequestQueue) (sid s' : String) (h : s' ≠ sid) :
    (get_current q sid).2.queues s' = q.queues s'
      ∧ (get_current q sid).2.peeked s' = q.peeked s' := by
  unfold get_current
  cases hp : q.peeked sid with
  | some e => simp
  | none => cases hq : q.queues sid <;> simp [updateMap, h]

theorem dequeue_fst (q : RequestQueue) (sid : String) :
    (dequeue q sid).1 = (pending q sid).head? := by
  unfold dequeue pending
  cases hp : q.peeked sid with
  | some e => simp
  | none => cases hq : q.queues sid <;> simp

theorem dequeue_pending (q : RequestQueue) (sid : String) :
    pending (dequeue q sid).2 sid = (pending q sid).tail := by
  unfold dequeue pending
  cases hp : q.peeked sid with
  | some e => simp [updateMap]
  | none => cases hq : q.queues sid <;> simp [hp, hq, updateMap]

theorem dequeue_frame (q : RequestQueue) (sid s' : String) (h : s' ≠ sid) :
    (dequeue q sid).2.queues s' = q.queues s'
      ∧ (dequeue q sid).2.peeked s' = q.peeked s' := by
  unfold dequeue
  cases hp : q.peeked sid with
  | some e => simp [updateMap, h]
  | none => cases hq : q.queues sid <;> simp [updateMap, h]

theorem enqueue_pending (q : RequestQueue) (e : SessionEvent) :
    pending (enqueue q e) e.session_id = pending q e.session_id ++ [e] := by
  simp [enqueue, pending, updateMap]

theorem enqueue_frame (q : RequestQueue) (e : SessionEvent) (s' : String)
    (h : s' ≠ e.session_id) :
    (enqueue q e).queues s' = q.queues s' ∧ (enqueue q e).peeked s' = q.peeked s' := by
  simp [enqueue, updateMap, h]

theorem dequeued_take (sid : String) :
    ∀ (ops : List QueueOp) (q : RequestQueue),
      ∃ k, dequeued q sid ops = (pending q sid).take k := by
  intro ops
  induction ops with
  | nil => exact fun q => ⟨0, rfl⟩
  | cons op ops ih =>
    intro q
    cases op with
    | peek =>
      obtain ⟨k, hk⟩ := ih (get_current q sid).2
      exact ⟨k, by simpa [dequeued, get_current_pending] using hk⟩
    | deq =>
      obtain ⟨k, hk⟩ := ih (dequeue q sid).2
      have hfst := dequeue_fst q sid
      have hpend := dequeue_pending q sid
      cases hd : (dequeue q sid).1 with
      | none =>
        refine ⟨k, ?_⟩
        have hnil : pending q sid = [] := by
          cases hpq : pending q sid with
          | nil => rfl
          | cons a l => rw [hfst, hpq] at hd; simp at hd
        have : dequeued q sid (QueueOp.deq :: ops) = dequeued (dequeue q sid).2 sid ops := by
          rcases hdq : dequeue q sid with ⟨r, q'⟩
          rw [hdq] at hd
          simp at hd
          simp only [dequeued, hdq, hd]
        rw [this, hk, hpend, hnil]
        simp
      | some e =>
        refine ⟨k + 1, ?_⟩
        obtain ⟨l, hl⟩ : ∃ l, pending q sid = e :: l := by
          cases hpq : pending q sid with
          | nil => rw [hfst, hpq] at hd; simp at hd
          | cons a l =>
            rw [hfst, hpq] at hd
            simp at hd
            exact ⟨l, by rw [hd]⟩
        have : dequeued q sid (QueueOp.deq :: ops) = e :: dequeued (dequeue q sid).2 sid ops := by
          rcases hdq : dequeue q sid with ⟨r, q'⟩
          rw [hdq] at hd
          simp at hd
          simp only [dequeued, hdq, hd]
        rw [this, hk, hpend, hl]
        simp

theorem runOps_frame (sid s' : String) (h : s' ≠ sid) :
    ∀ (ops : List QueueOp) (q : RequestQueue),
      (runOps q sid ops).queues s' = q.queues s'
        ∧ (runOps q sid ops).peeked s' = q.peeked s' := by
  intro ops
  induction ops with
  | nil => exact fun q => ⟨rfl, rfl⟩
  | cons op ops ih =>
    intro q
    cases op with
    | peek =>
      obtain ⟨h1, h2⟩ := ih (get_current q sid).2
      obtain ⟨h3, h4⟩ := get_current_frame q sid s' h
      exact ⟨by rw [runOps, h1, h3], by rw [runOps, h2, h4]⟩
    | deq =>
      obtain ⟨h1, h2⟩ := ih (dequeue q sid).2
      obtain ⟨h3, h4⟩ := dequeue_frame q sid s' h
      exact ⟨by rw [runOps, h1, h3], by rw [runOps, h2, h4]⟩

theorem peeked_some_get_current (q : RequestQueue) (sid : String) (e : SessionEvent)
    (h : q.peeked sid = some e) : get_current q sid = (some e, q) := by
  unfold get_current
  rw [h]

theorem peeked_some_dequeue_fst (q : RequestQueue) (sid : String) (e : SessionEvent)
    (h : q.peeked sid = some e) : (dequeue q sid).1 = some e := by
  unfold dequeue
  rw [h]

theorem get_current_peeked_after (q : RequestQueue) (sid : String) (e : SessionEvent)
    (h : (pending q sid).head? = some e) :
    ((get_current q sid).2).peeked sid = some e := by
  cases hp : q.peeked sid with
  | some e' =>
    have he : e' = e := by simpa [pending, hp] using h
    rw [peeked_some_get_current q sid e' hp, hp, he]
  | none =>
    cases hq : q.queues sid with
    | nil => simp [pending, hp, hq] at h
    | cons a l =>
      have ha : a = e := by simpa [pending, hp, hq] using h
      unfold get_current
      rw [hp, hq]
      simp [updateMap, ha]

end RequestQueue

namespace EventBroadcaster

theorem getD_map_append (e : SessionEvent) :
    ∀ (l : List (List SessionEvent)) (i : Nat), i < l.length →
      ((l.map (fun ch => ch ++ [e])).getD i []) = l.getD i [] ++ [e] := by
  intro l
  induction l with
  | nil => intro i hi; simp at hi
  | cons x xs ih =>
    intro i hi
    cases i with
    | zero => simp
    | succ j =>
      simp only [List.map_cons, List.getD_cons_succ]
      exact ih j (by simpa using hi)

theorem broadcast_frame (b : EventBroadcaster) (sid s' : String) (e : SessionEvent)
    (h : s' ≠ sid) : (broadcast b sid e).subscribers s' = b.subscribers s' := by
  unfold broadcast
  by_cases he : (b.subscribers sid).isEmpty <;> simp [he, updateMap, h]

theorem broadcast_length (b : EventBroadcaster) (sid s' : String) (e : SessionEvent) :
    ((broadcast b sid e).subscribers s').length = (b.subscribers s').length := by
  by_cases h : s' = sid
  · subst h
    unfold broadcast
    by_cases he : (b.subscribers s').isEmpty <;> simp [he, updateMap]
  · rw [broadcast_frame b sid s' e h]

theorem broadcast_getD (b : EventBroadcaster) (sid : String) (e : SessionEvent)
    (i : Nat) (hi : i < (b.subscribers sid).length) :
    ((broadcast b sid e).subscribers sid).getD i [] = (b.subscribers sid).getD i [] ++ [e] := by
  unfold broadcast
  by_cases he : (b.subscribers sid).isEmpty
  · rw [List.isEmpty_iff] at he
    rw [he] at hi
    simp at hi
  · simp only [he, if_neg, Bool.false_eq_true, not_false_eq_true, updateMap, if_pos rfl]
    exact getD_map_append e (b.subscribers sid) i hi

theorem runBroadcasts_getD (s : String) (i : Nat) :
    ∀ (cmds : List (String × SessionEvent)) (b : EventBroadcaster),
      i < (b.subscribers s).length →
      ((runBroadcasts b cmds).subscribers s).getD i []
        = (b.subscribers s).getD i [] ++ eventsFor s cmds := by
  intro cmds
  induction cmds with
  | nil => intro b _; simp [runBroadcasts, eventsFor]
  | cons c rest ih =>
    intro b hi
    rcases c with ⟨sid, e⟩
    have hlen : i < ((broadcast b sid e).subscribers s).length := by
      rw [broadcast_length]; exact hi
    have hstep := ih (broadcast b sid e) hlen
    by_cases hs : sid = s
    · subst hs
      rw [runBroadcasts, hstep, broadcast_getD b sid e i hi]
      simp [eventsFor]
    · rw [runBroadcasts, hstep, broadcast_frame b sid s e (fun hc => hs hc.symm)]
      have : eventsFor s ((sid, e) :: rest) = eventsFor s rest := by
        simp [eventsFor, hs]
      rw [this]

theorem runBroadcasts_length (s : String) :
    ∀ (cmds : List (String × SessionEvent)) (b : EventBroadcaster),
      ((runBroadcasts b cmds).subscribers s).length = (b.subscribers s).length := by
  intro cmds
  induction cmds with
  | nil => intro b; rfl
  | cons c rest ih =>
    intro b
    rcases c with ⟨sid, e⟩
    rw [runBroadcasts, ih, broadcast_length]

end EventBroadcaster

/-- C3: a subscriber channel registered before e1 is broadcast receives
the session's broadcasts in broadcast order: after running any broadcast
sequence that emits e1 and, later, e2 for session s, the channel's
delivered list is its previous contents followed by exactly the events
addressed to s in order — in particular e1 appears strictly before e2
(at indices js < ks). -/
theorem claim_C3_broadcast_order (b : EventBroadcaster) (s : String) (i : Nat)
    (hi : i < (b.subscribers s).length) (l1 l2 l3 : List (String × SessionEvent))
    (e1 e2 : SessionEvent) :
    (((EventBroadcaster.runBroadcasts b
          (l1 ++ (s, e1) :: l2 ++ (s, e2) :: l3)).subscribers s).getD i []
      = (b.subscribers s).getD i []
        ++ (eventsFor s l1
            ++ e1 :: eventsFor s l2
            ++ e2 :: eventsFor s l3))
    ∧ ∃ js ks : Nat, js < ks
        ∧ (((EventBroadcaster.runBroadcasts b
              (l1 ++ (s, e1) :: l2 ++ (s, e2) :: l3)).subscribers s).getD i [])[js]? = some e1
        ∧ (((EventBroadcaster.runBroadcasts b
              (l1 ++ (s, e1) :: l2 ++ (s, e2) :: l3)).subscribers s).getD i [])[ks]? = some e2 := by
  have hmain := EventBroadcaster.runBroadcasts_getD s i (l1 ++ (s, e1) :: l2 ++ (s, e2) :: l3) b hi
  have hev : eventsFor s (l1 ++ (s, e1) :: l2 ++ (s, e2) :: l3)
      = eventsFor s l1
        ++ e1 :: eventsFor s l2 ++ e2 :: eventsFor s l3 := by
    simp [eventsFor]
  rw [hev] at hmain
  refine ⟨hmain, ?_⟩
  set pre := (b.subscribers s).getD i [] ++ eventsFor s l1 with hpre
  have hassoc : (b.subscribers s).getD i []
        ++ (eventsFor s l1
            ++ e1 :: eventsFor s l2 ++ e2 :: eventsFor s l3)
      = pre ++ e1 :: (eventsFor s l2 ++ e2 :: eventsFor s l3) := by
    simp [hpre]
  refine ⟨pre.length, pre.length + 1 + (eventsFor s l2).length, by omega, ?_, ?_⟩
  · rw [hmain, hassoc]
    rw [List.getElem?_append_right (by omega)]
    simp
  · rw [hmain, hassoc,
      show pre ++ e1 :: (eventsFor s l2 ++ e2 :: eventsFor s l3)
          = (pre ++ e1 :: eventsFor s l2) ++ e2 :: eventsFor s l3
        from by simp]
    rw [List.getElem?_append_right
      (by simp only [List.length_append, List.length_cons]; omega)]
    have h0 : pre.length + 1 + (eventsFor s l2).length
        - (pre ++ e1 :: eventsFor s l2).length = 0 := by
      simp only [List.length_append, List.length_cons]
      omega
    rw [h0]
    simp

/-- C3 witness: one registered subscriber, e1 broadcast, an unrelated
session's broadcast interleaved, then e2. -/
theorem claim_C3_broadcast_order_witness :
    (((EventBroadcaster.runBroadcasts (EventBroadcaster.subscribe EventBroadcaster.init "s")
          ([("s", ⟨"eA", "s", "tA", "a", .request "rA"⟩)]
            ++ ("s", ⟨"e1", "s", "t1", "a", .request "r1"⟩)
              :: [("x", ⟨"eB", "x", "tB", "a", .request "rB"⟩)]
            ++ ("s", ⟨"e2", "s", "t2", "a", .response "r2"⟩) :: [])).subscribers "s").getD 0 []
      = ((EventBroadcaster.subscribe EventBroadcaster.init "s").subscribers "s").getD 0 []
        ++ (eventsFor "s" [("s", ⟨"eA", "s", "tA", "a", .request "rA"⟩)]
            ++ ⟨"e1", "s", "t1", "a", .request "r1"⟩
              :: eventsFor "s" [("x", ⟨"eB", "x", "tB", "a", .request "rB"⟩)]
            ++ ⟨"e2", "s", "t2", "a", .response "r2"⟩ :: eventsFor "s" []))
    ∧ ∃ js ks : Nat, js < ks
        ∧ (((EventBroadcaster.runBroadcasts (EventBroadcaster.subscribe EventBroadcaster.init "s")
              ([("s", ⟨"eA", "s", "tA", "a", .request "rA"⟩)]
                ++ ("s", ⟨"e1", "s", "t1", "a", .request "r1"⟩)
                  :: [("x", ⟨"eB", "x", "tB", "a", .request "rB"⟩)]
                ++ ("s", ⟨"e2", "s", "t2", "a", .response "r2"⟩) :: [])).subscribers "s").getD 0 [])[js]?
            = some ⟨"e1", "s", "t1", "a", .request "r1"⟩
        ∧ (((EventBroadcaster.runBroadcasts (EventBroadcaster.subscribe EventBroadcaster.init "s")
              ([("s", ⟨"eA", "s", "tA", "a", .request "rA"⟩)]
                ++ ("s", ⟨"e1", "s", "t1", "a", .request "r1"⟩)
                  :: [("x", ⟨"eB", "x", "tB", "a", .request "rB"⟩)]
                ++ ("s", ⟨"e2", "s", "t2", "a", .response "r2"⟩) :: [])).subscribers "s").getD 0 [])[ks]?
            = some ⟨"e2", "s", "t2", "a", .response "r2"⟩ :=
  claim_C3_broadcast_order (EventBroadcaster.subscribe EventBroadcaster.init "s") "s" 0
    (by decide)
    [("s", ⟨"eA", "s", "tA", "a", .request "rA"⟩)]
    [("x", ⟨"eB", "x", "tB", "a", .request "rB"⟩)] []
    ⟨"e1", "s", "t1", "a", .request "r1"⟩ ⟨"e2", "s", "t2", "a", .response "r2"⟩

/-- C8: broadcasting to a session with zero subscribers changes nothing —
the broadcaster state is returned untouched (and the embedding is a total
function, so nothing is raised) — and the event is not queued for later
subscribers: a subscriber registering afterwards starts from an empty
delivery queue. -/
theorem claim_C8_broadcast_no_subscribers (b : EventBroadcaster) (s : String)
    (e : SessionEvent) (h : EventBroadcaster.subscriber_count b s = 0) :
    EventBroadcaster.broadcast b s e = b
    ∧ ((EventBroadcaster.subscribe (EventBroadcaster.broadcast b s e) s).subscribers s).getD
        (EventBroadcaster.subscriber_count (EventBroadcaster.broadcast b s e) s) [] = [] := by
  have hnil : b.subscribers s = [] := by
    rwa [EventBroadcaster.subscriber_count, List.length_eq_zero] at h
  have hb : EventBroadcaster.broadcast b s e = b := by
    unfold EventBroadcaster.broadcast
    simp [hnil]
  refine ⟨hb, ?_⟩
  rw [hb]
  simp [EventBroadcaster.subscribe, EventBroadcaster.subscriber_count, updateMap, hnil]

/-- C8 witness: broadcasting on a fresh broadcaster with no subscribers. -/
theorem claim_C8_broadcast_no_subscribers_witness :
    EventBroadcaster.broadcast EventBroadcaster.init "s" ⟨"e1", "s", "t1", "a", .request "r"⟩
        = EventBroadcaster.init
    ∧ ((EventBroadcaster.subscribe
          (EventBroadcaster.broadcast EventBroadcaster.init "s"
            ⟨"e1", "s", "t1", "a", .request "r"⟩) "s").subscribers "s").getD
        (EventBroadcaster.subscriber_count
          (EventBroadcaster.broadcast EventBroadcaster.init "s"
            ⟨"e1", "s", "t1", "a", .request "r"⟩) "s") [] = [] :=
  claim_C8_broadcast_no_subscribers EventBroadcaster.init "s"
    ⟨"e1", "s", "t1", "a", .request "r"⟩ rfl

/-- C4: once T1, T2, T3 have been enqueued (in that order, with no other
events pending for the session), every interleaving of `get_current`
(peek) and `dequeue` operations hands out T1 before T2 before T3 — the
events returned by the dequeues form a prefix of [T1, T2, T3] in order —
and none of those operations touches any other session's queue or peek
slot. -/
theorem claim_C4_fifo_per_session (q0 : RequestQueue) (s : String)
    (T1 T2 T3 : SessionEvent) (ops : List RequestQueue.QueueOp)
    (hq : q0.queues s = []) (hp : q0.peeked s = none)
    (h1 : T1.session_id = s) (h2 : T2.session_id = s) (h3 : T3.session_id = s) :
    (∃ k, RequestQueue.dequeued
        (RequestQueue.enqueue (RequestQueue.enqueue (RequestQueue.enqueue q0 T1) T2) T3)
        s ops = [T1, T2, T3].take k)
    ∧ ∀ s', s' ≠ s →
        (RequestQueue.runOps
          (RequestQueue.enqueue (RequestQueue.enqueue (RequestQueue.enqueue q0 T1) T2) T3)
          s ops).queues s' = q0.queues s'
        ∧ (RequestQueue.runOps
          (RequestQueue.enqueue (RequestQueue.enqueue (RequestQueue.enqueue q0 T1) T2) T3)
          s ops).peeked s' = q0.peeked s' := by
  have hpend : RequestQueue.pending
      (RequestQueue.enqueue (RequestQueue.enqueue (RequestQueue.enqueue q0 T1) T2) T3) s
      = [T1, T2, T3] := by
    simp [RequestQueue.enqueue, RequestQueue.pending, updateMap, h1, h2, h3, hq, hp]
  constructor
  · obtain ⟨k, hk⟩ := RequestQueue.dequeued_take s ops
      (RequestQueue.enqueue (RequestQueue.enqueue (RequestQueue.enqueue q0 T1) T2) T3)
    exact ⟨k, by rw [hk, hpend]⟩
  · intro s' hs'
    obtain ⟨hr1, hr2⟩ := RequestQueue.runOps_frame s s' hs' ops
      (RequestQueue.enqueue (RequestQueue.enqueue (RequestQueue.enqueue q0 T1) T2) T3)
    obtain ⟨he11, he12⟩ := RequestQueue.enqueue_frame q0 T1 s' (h1 ▸ hs')
    obtain ⟨he21, he22⟩ := RequestQueue.enqueue_frame (RequestQueue.enqueue q0 T1) T2 s'
      (h2 ▸ hs')
    obtain ⟨he31, he32⟩ := RequestQueue.enqueue_frame
      (RequestQueue.enqueue (RequestQueue.enqueue q0 T1) T2) T3 s' (h3 ▸ hs')
    exact ⟨by rw [hr1, he31, he21, he11], by rw [hr2, he32, he22, he12]⟩

/-- C4 witness: a concrete run (peek, dequeue, dequeue, peek, dequeue)
over three enqueued events. -/
theorem claim_C4_fifo_per_session_witness :
    (∃ k, RequestQueue.dequeued
        (RequestQueue.enqueue (RequestQueue.enqueue (RequestQueue.enqueue RequestQueue.init
          ⟨"e1", "s", "t1", "a", .request "r1"⟩) ⟨"e2", "s", "t2", "a", .request "r2"⟩)
          ⟨"e3", "s", "t3", "a", .request "r3"⟩)
        "s" [.peek, .deq, .deq, .peek, .deq]
        = [⟨"e1", "s", "t1", "a", .request "r1"⟩, ⟨"e2", "s", "t2", "a", .request "r2"⟩,
           ⟨"e3", "s", "t3", "a", .request "r3"⟩].take k)
    ∧ ∀ s', s' ≠ "s" →
        (RequestQueue.runOps
          (RequestQueue.enqueue (RequestQueue.enqueue (RequestQueue.enqueue RequestQueue.init
            ⟨"e1", "s", "t1", "a", .request "r1"⟩) ⟨"e2", "s", "t2", "a", .request "r2"⟩)
            ⟨"e3", "s", "t3", "a", .request "r3"⟩)
          "s" [.peek, .deq, .deq, .peek, .deq]).queues s' = RequestQueue.init.queues s'
        ∧ (RequestQueue.runOps
          (RequestQueue.enqueue (RequestQueue.enqueue (RequestQueue.enqueue RequestQueue.init
            ⟨"e1", "s", "t1", "a", .request "r1"⟩) ⟨"e2", "s", "t2", "a", .request "r2"⟩)
            ⟨"e3", "s", "t3", "a", .request "r3"⟩)
          "s" [.peek, .deq, .deq, .peek, .deq]).peeked s' = RequestQueue.init.peeked s' :=
  claim_C4_fifo_per_session RequestQueue.init "s"
    ⟨"e1", "s", "t1", "a", .request "r1"⟩ ⟨"e2", "s", "t2", "a", .request "r2"⟩
    ⟨"e3", "s", "t3", "a", .request "r3"⟩ [.peek, .deq, .deq, .peek, .deq]
    rfl rfl rfl rfl rfl

/-- C5: when a session's queue is non-empty with head e, `get_current`
returns e; peeking again returns the same e and leaves the state exactly
as it was after the first peek; and a `dequeue` following the peek
returns exactly the peeked e. -/
theorem claim_C5_peek_dequeue_consistent (q : RequestQueue) (sid : String)
    (e : SessionEvent) (h : (RequestQueue.pending q sid).head? = some e) :
    (RequestQueue.get_current q sid).1 = some e
    ∧ RequestQueue.get_current (RequestQueue.get_current q sid).2 sid
        = (some e, (RequestQueue.get_current q sid).2)
    ∧ (RequestQueue.dequeue (RequestQueue.get_current q sid).2 sid).1 = some e := by
  have h1 : (RequestQueue.get_current q sid).1 = some e := by
    rw [RequestQueue.get_current_fst, h]
  have h2 : ((RequestQueue.get_current q sid).2).peeked sid = some e :=
    RequestQueue.get_current_peeked_after q sid e h
  exact ⟨h1, RequestQueue.peeked_some_get_current _ sid e h2,
    RequestQueue.peeked_some_dequeue_fst _ sid e h2⟩

/-- C5 witness: one queued event, peeked then dequeued. -/
theorem claim_C5_peek_dequeue_consistent_witness :
    (RequestQueue.get_current
      (RequestQueue.enqueue RequestQueue.init ⟨"e1", "s", "t1", "a", .request "r1"⟩) "s").1
      = some ⟨"e1", "s", "t1", "a", .request "r1"⟩
    ∧ RequestQueue.get_current
        (RequestQueue.get_current
          (RequestQueue.enqueue RequestQueue.init ⟨"e1", "s", "t1", "a", .request "r1"⟩)
          "s").2 "s"
        = (some ⟨"e1", "s", "t1", "a", .request "r1"⟩,
           (RequestQueue.get_current
            (RequestQueue.enqueue RequestQueue.init ⟨"e1", "s", "t1", "a", .request "r1"⟩)
            "s").2)
    ∧ (RequestQueue.dequeue
        (RequestQueue.get_current
          (RequestQueue.enqueue RequestQueue.init ⟨"e1", "s", "t1", "a", .request "r1"⟩)
          "s").2 "s").1
        = some ⟨"e1", "s", "t1", "a", .request "r1"⟩ :=
  claim_C5_peek_dequeue_consistent
    (RequestQueue.enqueue RequestQueue.init ⟨"e1", "s", "t1", "a", .request "r1"⟩)
    "s" ⟨"e1", "s", "t1", "a", .request "r1"⟩ (by decide)

namespace SimBroker

theorem getD_map_live (e : SessionEvent) :
    ∀ (l : List BrokerSubscriber) (i : Nat), i < l.length →
      (l.map (fun sub => { sub with live := sub.live ++ [e] })).getD i default
        = { l.getD i default with live := (l.getD i default).live ++ [e] } := by
  intro l
  induction l with
  | nil => intro i hi; simp at hi
  | cons x xs ih =>
    intro i hi
    cases i with
    | zero => simp
    | succ j =>
      simp only [List.map_cons, List.getD_cons_succ]
      exact ih j (by simpa using hi)

theorem submitStep_subs_length (br : SimBroker) (sid s' : String) (e : SessionEvent) :
    ((submitStep br sid e).subs s').length = (br.subs s').length := by
  unfold submitStep
  by_cases h : s' = sid
  · subst h; simp [updateMap]
  · simp [updateMap, h]

theorem submitStep_subs_getD (br : SimBroker) (s : String) (e : SessionEvent)
    (i : Nat) (hi : i < (br.subs s).length) :
    ((submitStep br s e).subs s).getD i default
      = { (br.subs s).getD i default with
          live := ((br.subs s).getD i default).live ++ [e] } := by
  unfold submitStep
  simp only [updateMap, if_pos rfl]
  exact getD_map_live e (br.subs s) i hi

theorem submitStep_subs_frame (br : SimBroker) (sid s' : String) (e : SessionEvent)
    (h : s' ≠ sid) : (submitStep br sid e).subs s' = br.subs s' := by
  unfold submitStep
  simp [updateMap, h]

theorem runSubmits_subs_getD (s : String) (i : Nat) :
    ∀ (cmds : List (String × SessionEvent)) (br : SimBroker),
      i < (br.subs s).length →
      ((runSubmits br cmds).subs s).getD i default
        = { history := ((br.subs s).getD i default).history,
            live := ((br.subs s).getD i default).live ++ eventsFor s cmds } := by
  intro cmds
  induction cmds with
  | nil => intro br _; simp [runSubmits, eventsFor]
  | cons c rest ih =>
    intro br hi
    rcases c with ⟨sid, e⟩
    have hlen : i < ((submitStep br sid e).subs s).length := by
      rw [submitStep_subs_length]; exact hi
    have hstep := ih (submitStep br sid e) hlen
    by_cases hs : sid = s
    · subst hs
      rw [runSubmits, hstep, submitStep_subs_getD br sid e i hi]
      simp [eventsFor]
    · rw [runSubmits, hstep, submitStep_subs_frame br sid s e (fun hc => hs hc.symm)]
      have : eventsFor s ((sid, e) :: rest) = eventsFor s rest := by
        simp [eventsFor, hs]
      rw [this]

theorem getD_append_length (l : List BrokerSubscriber) (x : BrokerSubscriber) :
    (l ++ [x]).getD l.length default = x := by
  induction l with
  | nil => rfl
  | cons y ys ih => simp [ih]

end SimBroker

/-- C1: subscribing to a session whose store holds N persisted events
yields exactly those N events in order, then exactly one
`HistoryComplete` marker carrying event_count = N, then exactly the
events submitted for that session after the registration, in order —
nothing lost and nothing duplicated at the history/live boundary (the
model folds history fetch and channel registration into one atomic
step, which is what the per-session lock enforces). -/
theorem claim_C1_atomic_replay_then_live (br : SimBroker) (s : String)
    (post : List (String × SessionEvent)) :
    SimBroker.delivered s
        (((SimBroker.runSubmits (SimBroker.subscribeStep br s) post).subs s).getD
          (br.subs s).length default)
      = br.store s
        ++ SimBroker.historyCompleteEvent s (br.store s).length :: eventsFor s post := by
  have hreg : (SimBroker.subscribeStep br s).subs s
      = br.subs s ++ [⟨br.store s, []⟩] := by
    simp [SimBroker.subscribeStep, updateMap]
  have hidx : (br.subs s).length < ((SimBroker.subscribeStep br s).subs s).length := by
    rw [hreg]; simp
  have hrun := SimBroker.runSubmits_subs_getD s (br.subs s).length post
    (SimBroker.subscribeStep br s) hidx
  rw [hreg, SimBroker.getD_append_length] at hrun
  rw [hrun]
  simp [SimBroker.delivered]

/-- C9: with no stub (no connection established), `submit_request` and
`subscribe` both fail that single call with the not-connected error and
send no RPC request (and nothing is retried — the sent list is empty);
with a stub but no session id, both fail with the no-session error and
likewise send nothing. -/
theorem claim_C9_fail_without_connection_or_session
    (server : SubmitRequestRequest → String) (c : SimulatorClient)
    (turn_id agent_name request : String) (client_id : Option String) (uuid : String) :
    (c.stub = none →
      SimulatorClient.submit_request server c turn_id agent_name request
          = (.error SimulatorClient.notConnectedMsg, [])
      ∧ SimulatorClient.subscribe c client_id uuid
          = (.error SimulatorClient.notConnectedMsg, []))
    ∧ (c.stub ≠ none → c.session_id = none →
      SimulatorClient.submit_request server c turn_id agent_name request
          = (.error SimulatorClient.noSessionMsg, [])
      ∧ SimulatorClient.subscribe c client_id uuid
          = (.error SimulatorClient.noSessionMsg, [])) := by
  constructor
  · intro h
    unfold SimulatorClient.submit_request SimulatorClient.subscribe
    rw [h]
    exact ⟨rfl, rfl⟩
  · intro h1 h2
    unfold SimulatorClient.submit_request SimulatorClient.subscribe
    rcases hst : c.stub with _ | st
    · exact absurd hst h1
    · rw [h2]
      exact ⟨rfl, rfl⟩

/-- C9 witness: a freshly-constructed client (no stub), and a connected
client (stub present) without a session. -/
theorem claim_C9_fail_without_connection_or_session_witness :
    (SimulatorClient.submit_request (fun _ => "evt") SimulatorClient.mkNew "t" "a" "r"
        = (.error SimulatorClient.notConnectedMsg, [])
      ∧ SimulatorClient.subscribe SimulatorClient.mkNew none "u"
        = (.error SimulatorClient.notConnectedMsg, []))
    ∧ (SimulatorClient.submit_request (fun _ => "evt")
          ⟨some ⟨"localhost", 50051⟩, some ⟨"localhost", 50051⟩, none⟩ "t" "a" "r"
        = (.error SimulatorClient.noSessionMsg, [])
      ∧ SimulatorClient.subscribe
          ⟨some ⟨"localhost", 50051⟩, some ⟨"localhost", 50051⟩, none⟩ none "u"
        = (.error SimulatorClient.noSessionMsg, [])) :=
  ⟨(claim_C9_fail_without_connection_or_session (fun _ => "evt") SimulatorClient.mkNew
      "t" "a" "r" none "u").1 rfl,
   (claim_C9_fail_without_connection_or_session (fun _ => "evt")
      ⟨some ⟨"localhost", 50051⟩, some ⟨"localhost", 50051⟩, none⟩
      "t" "a" "r" none "u").2 (by decide) rfl⟩

/-- C10: `close` is idempotent — closing twice equals closing once (and
the embedding is a total function, so no call raises) — and after any
`close` the channel and stub are cleared and `is_connected` is false.
The hypothesis is the reachable-state invariant maintained by
`connect`/`close`: a client without a channel has no stub either. -/
theorem claim_C10_close_idempotent (c : SimulatorClient)
    (hinv : c.channel = none → c.stub = none) :
    SimulatorClient.close (SimulatorClient.close c) = SimulatorClient.close c
    ∧ (SimulatorClient.close c).channel = none
    ∧ (SimulatorClient.close c).stub = none
    ∧ SimulatorClient.is_connected (SimulatorClient.close c) = false := by
  cases hch : c.channel with
  | some ch =>
    have h1 : SimulatorClient.close c = { c with channel := none, stub := none } := by
      unfold SimulatorClient.close
      rw [hch]
    rw [h1]
    exact ⟨rfl, rfl, rfl, rfl⟩
  | none =>
    have h1 : SimulatorClient.close c = c := by
      unfold SimulatorClient.close
      rw [hch]
    rw [h1]
    exact ⟨h1, hch, hinv hch, by simp [SimulatorClient.is_connected, hch]⟩

/-- C10 witness: a connected client with a session. -/
theorem claim_C10_close_idempotent_witness :
    SimulatorClient.close (SimulatorClient.close
        ⟨some ⟨"localhost", 50051⟩, some ⟨"localhost", 50051⟩, some "sid"⟩)
      = SimulatorClient.close
        ⟨some ⟨"localhost", 50051⟩, some ⟨"localhost", 50051⟩, some "sid"⟩
    ∧ (SimulatorClient.close
        ⟨some ⟨"localhost", 50051⟩, some ⟨"localhost", 50051⟩, some "sid"⟩).channel = none
    ∧ (SimulatorClient.close
        ⟨some ⟨"localhost", 50051⟩, some ⟨"localhost", 50051⟩, some "sid"⟩).stub = none
    ∧ SimulatorClient.is_connected (SimulatorClient.close
        ⟨some ⟨"localhost", 50051⟩, some ⟨"localhost", 50051⟩, some "sid"⟩) = false :=
  claim_C10_close_idempotent
    ⟨some ⟨"localhost", 50051⟩, some ⟨"localhost", 50051⟩, some "sid"⟩ (by decide)

theorem charToNat_ofNat : ∀ m, m < 128 → (Char.ofNat m).toNat = m := by decide

theorem ofDigitsLE_natDigitsRevFuel :
    ∀ (fuel n : Nat), n ≤ fuel → ofDigitsLE (natDigitsRevFuel fuel n) = n := by
  intro fuel
  induction fuel with
  | zero =>
    intro n hn
    have : n = 0 := by omega
    subst this
    rfl
  | succ f ih =>
    intro n hn
    by_cases h0 : n = 0
    · simp [natDigitsRevFuel, h0, ofDigitsLE]
    · simp only [natDigitsRevFuel, if_neg h0, ofDigitsLE]
      rw [ih (n / 10) (by omega)]
      omega

theorem natDigitsRevFuel_lt10 :
    ∀ (fuel n d : Nat), d ∈ natDigitsRevFuel fuel n → d < 10 := by
  intro fuel
  induction fuel with
  | zero => intro n d hd; simp [natDigitsRevFuel] at hd
  | succ f ih =>
    intro n d hd
    by_cases h0 : n = 0
    · simp [natDigitsRevFuel, h0] at hd
    · simp only [natDigitsRevFuel, if_neg h0, List.mem_cons] at hd
      rcases hd with h | h
      · omega
      · exact ih _ _ h

theorem foldl_digit_chars :
    ∀ (ds : List Nat) (acc : Nat), (∀ d ∈ ds, d < 10) →
      List.foldl (fun a c => a * 10 + (c.toNat - 48)) acc
          (ds.map (fun d => Char.ofNat (48 + d)))
        = List.foldl (fun a d => a * 10 + d) acc ds := by
  intro ds
  induction ds with
  | nil => intro acc _; rfl
  | cons d rest ih =>
    intro acc hd
    have h48 : (Char.ofNat (48 + d)).toNat = 48 + d :=
      charToNat_ofNat _ (by have := hd d (by simp); omega)
    simp only [List.map_cons, List.foldl_cons, h48]
    rw [show 48 + d - 48 = d from by omega]
    exact ih _ (fun x hx => hd x (by simp [hx]))

theorem foldl_reverse_ofDigitsLE :
    ∀ (ds : List Nat) (acc : Nat),
      List.foldl (fun a d => a * 10 + d) acc ds.reverse
        = acc * 10 ^ ds.length + ofDigitsLE ds := by
  intro ds
  induction ds with
  | nil => intro acc; simp [ofDigitsLE]
  | cons d rest ih =>
    intro acc
    simp only [List.reverse_cons, List.foldl_append, ih, List.foldl_cons, List.foldl_nil,
      ofDigitsLE, List.length_cons]
    ring

theorem digitsVal_natToDigitChars (n : Nat) : digitsVal (natToDigitChars n) = n := by
  by_cases h0 : n = 0
  · subst h0; decide
  · unfold natToDigitChars digitsVal
    rw [if_neg h0]
    rw [foldl_digit_chars _ 0
      (fun d hd => natDigitsRevFuel_lt10 n n d (by simpa using hd))]
    rw [foldl_reverse_ofDigitsLE]
    rw [show natDigitsRev n = natDigitsRevFuel n n from rfl] at *
    rw [ofDigitsLE_natDigitsRevFuel n n le_rfl]
    simp

theorem natToDigitChars_bounds (n : Nat) :
    ∀ c ∈ natToDigitChars n, 48 ≤ c.toNat ∧ c.toNat ≤ 57 := by
  intro c hc
  unfold natToDigitChars at hc
  by_cases h0 : n = 0
  · rw [if_pos h0] at hc
    simp only [List.mem_singleton] at hc
    subst hc
    rw [charToNat_ofNat 48 (by omega)]
    omega
  · rw [if_neg h0] at hc
    simp only [List.mem_map] at hc
    obtain ⟨d, hd, rfl⟩ := hc
    have hlt : d < 10 := natDigitsRevFuel_lt10 n n d (by simpa using hd)
    rw [charToNat_ofNat _ (by omega)]
    omega

theorem natToDigitChars_ne_nil (n : Nat) : natToDigitChars n ≠ [] := by
  unfold natToDigitChars
  by_cases h0 : n = 0
  · simp [h0]
  · rw [if_neg h0]
    have hne : natDigitsRevFuel n n ≠ [] := by
      cases n with
      | zero => exact absurd rfl h0
      | succ m =>
        simp [natDigitsRevFuel]
    intro hcontra
    rw [List.map_eq_nil_iff, List.reverse_eq_nil_iff] at hcontra
    exact hne hcontra

theorem parseDigits_natToDigitChars (n : Nat) :
    parseDigits (natToDigitChars n) = some n := by
  have hcond : natToDigitChars n ≠ [] ∧ (natToDigitChars n).all isDigitChar = true := by
    refine ⟨natToDigitChars_ne_nil n, ?_⟩
    rw [List.all_eq_true]
    intro c hc
    have hb := natToDigitChars_bounds n c hc
    unfold isDigitChar
    exact decide_eq_true hb
  unfold parseDigits
  rw [if_pos hcond, digitsVal_natToDigitChars]

theorem dropWhile_eq_self_of_forall {p : Char → Bool} :
    ∀ (cs : List Char), (∀ c ∈ cs, p c = false) → cs.dropWhile p = cs := by
  intro cs h
  cases cs with
  | nil => rfl
  | cons c rest =>
    rw [List.dropWhile_cons]
    simp [h c (by simp)]

theorem trimSpaces_eq_self (cs : List Char) (h : ∀ c ∈ cs, c ≠ ' ') :
    trimSpaces cs = cs := by
  unfold trimSpaces
  rw [dropWhile_eq_self_of_forall cs (fun c hc => by simp [h c hc])]
  rw [dropWhile_eq_self_of_forall cs.reverse
    (fun c hc => by simp [h c (List.mem_reverse.mp hc)])]
  exact List.reverse_reverse cs

theorem pyInt_intToDecimalStr (i : Int) : pyInt (intToDecimalStr i) = some i := by
  by_cases hneg : i < 0
  · have hdata : (intToDecimalStr i).data = Char.ofNat 45 :: natToDigitChars i.natAbs := by
      unfold intToDecimalStr
      rw [if_pos hneg]
    have hns : ∀ c ∈ (intToDecimalStr i).data, c ≠ ' ' := by
      rw [hdata]
      intro c hc
      rcases List.mem_cons.mp hc with rfl | hc2
      · intro hcontra
        have : (Char.ofNat 45).toNat = 45 := charToNat_ofNat 45 (by omega)
        rw [hcontra] at this
        simp at this
      · have hb := natToDigitChars_bounds _ c hc2
        intro hcontra
        rw [hcontra] at hb
        have : (' ' : Char).toNat = 32 := rfl
        omega
    have e : trimSpaces (intToDecimalStr i).data
        = Char.ofNat 45 :: natToDigitChars i.natAbs := by
      rw [trimSpaces_eq_self _ hns, hdata]
    simp only [pyInt, e, if_true]
    rw [parseDigits_natToDigitChars]
    simp only [Option.map_some']
    have hcast : Int.ofNat i.natAbs = (i.natAbs : Int) := rfl
    rw [hcast]
    congr 1
    omega
  · have h0le : 0 ≤ i := by omega
    have hdata : (intToDecimalStr i).data = natToDigitChars i.toNat := by
      unfold intToDecimalStr
      rw [if_neg hneg]
    obtain ⟨c, rest, hcr⟩ : ∃ c rest, natToDigitChars i.toNat = c :: rest := by
      cases hnn : natToDigitChars i.toNat with
      | nil => exact absurd hnn (natToDigitChars_ne_nil _)
      | cons c rest => exact ⟨c, rest, rfl⟩
    have hbc := natToDigitChars_bounds i.toNat c (by rw [hcr]; simp)
    have e : trimSpaces (intToDecimalStr i).data = c :: rest := by
      rw [trimSpaces_eq_self, hdata, hcr]
      rw [hdata]
      intro c' hc'
      have hb := natToDigitChars_bounds i.toNat c' hc'
      intro hcontra
      rw [hcontra] at hb
      have : (' ' : Char).toNat = 32 := rfl
      omega
    simp only [pyInt, e]
    rw [if_neg, if_neg]
    · rw [← hcr, parseDigits_natToDigitChars]
      simp only [Option.map_some']
      have hcast : Int.ofNat i.toNat = (i.toNat : Int) := rfl
      rw [hcast]
      congr 1
      omega
    · intro hch
      rw [hch] at hbc
      have : ('+' : Char).toNat = 43 := rfl
      omega
    · intro hch
      rw [hch] at hbc
      have : ('-' : Char).toNat = 45 := rfl
      omega

theorem charSextet_sextetChar : ∀ n, n < 64 → charSextet (sextetChar n) = some n := by
  decide

theorem keepB64_sextetChar (n : Nat) (h : n < 64) : keepB64 (sextetChar n) = true := by
  unfold keepB64
  rw [charSextet_sextetChar n h]
  rfl

theorem keepB64_pad : keepB64 (Char.ofNat 61) = true := by decide

theorem tokOf_sextetChar (n : Nat) (h : n < 64) : tokOf (sextetChar n) = .val n := by
  unfold tokOf
  rw [charSextet_sextetChar n h]

theorem tokOf_pad : tokOf (Char.ofNat 61) = .pad := by decide

theorem decode_encode_bytes :
    ∀ (bs : List Nat), (∀ b ∈ bs, b < 256) →
      decodeToks (((b64encodeBytes bs).filter keepB64).map tokOf) = some bs := by
  intro bs
  induction bs using b64encodeBytes.induct with
  | case1 => intro _; rfl
  | case2 x =>
    intro h
    have hx : x < 256 := h x (by simp)
    have h1 : x / 4 < 64 := by omega
    have h2 : x % 4 * 16 < 64 := by omega
    have hpadk : keepB64 '=' = true := keepB64_pad
    have hpadt : tokOf '=' = .pad := tokOf_pad
    simp only [b64encodeBytes, List.filter_cons, keepB64_sextetChar _ h1,
      keepB64_sextetChar _ h2, hpadk, if_true, List.filter_nil, List.map_cons,
      List.map_nil, tokOf_sextetChar _ h1, tokOf_sextetChar _ h2, hpadt, decodeToks]
    rw [show x / 4 * 4 + x % 4 * 16 / 16 = x from by omega]
  | case3 x y =>
    intro h
    have hx : x < 256 := h x (by simp)
    have hy : y < 256 := h y (by simp)
    have h1 : x / 4 < 64 := by omega
    have h2 : x % 4 * 16 + y / 16 < 64 := by omega
    have h3 : y % 16 * 4 < 64 := by omega
    have hpadk : keepB64 '=' = true := keepB64_pad
    have hpadt : tokOf '=' = .pad := tokOf_pad
    simp only [b64encodeBytes, List.filter_cons, keepB64_sextetChar _ h1,
      keepB64_sextetChar _ h2, keepB64_sextetChar _ h3, hpadk, if_true, List.filter_nil,
      List.map_cons, List.map_nil, tokOf_sextetChar _ h1, tokOf_sextetChar _ h2,
      tokOf_sextetChar _ h3, hpadt, decodeToks]
    rw [show x / 4 * 4 + (x % 4 * 16 + y / 16) / 16 = x from by omega]
    rw [show (x % 4 * 16 + y / 16) % 16 * 16 + y % 16 * 4 / 4 = y from by omega]
  | case4 x y z rest ih =>
    intro h
    have hx : x < 256 := h x (by simp)
    have hy : y < 256 := h y (by simp)
    have hz : z < 256 := h z (by simp)
    have h1 : x / 4 < 64 := by omega
    have h2 : x % 4 * 16 + y / 16 < 64 := by omega
    have h3 : y % 16 * 4 + z / 64 < 64 := by omega
    have h4 : z % 64 < 64 := by omega
    have hrest := ih (fun b hb => h b (by simp [hb]))
    simp only [b64encodeBytes, List.filter_cons, keepB64_sextetChar _ h1,
      keepB64_sextetChar _ h2, keepB64_sextetChar _ h3, keepB64_sextetChar _ h4, if_true,
      List.map_cons, tokOf_sextetChar _ h1, tokOf_sextetChar _ h2, tokOf_sextetChar _ h3,
      tokOf_sextetChar _ h4, decodeToks]
    rw [hrest]
    simp only [Option.map_some']
    rw [show x / 4 * 4 + (x % 4 * 16 + y / 16) / 16 = x from by omega]
    rw [show (x % 4 * 16 + y / 16) % 16 * 16 + (y % 16 * 4 + z / 64) / 4 = y from by omega]
    rw [show (y % 16 * 4 + z / 64) % 4 * 64 + z % 64 = z from by omega]

theorem b64decodeStr_b64encodeStr (s : String) (h : ∀ c ∈ s.data, c.toNat < 256) :
    b64decodeStr (b64encodeStr s) = some (s.data.map Char.toNat) := by
  unfold b64decodeStr b64encodeStr
  exact decode_encode_bytes _ (by
    intro b hb
    simp only [List.mem_map] at hb
    obtain ⟨c, hc, rfl⟩ := hb
    exact h c hc)

theorem intToDecimalStr_data_ne_nil (ts : Int) : (intToDecimalStr ts).data ≠ [] := by
  unfold intToDecimalStr
  by_cases hneg : ts < 0
  · rw [if_pos hneg]
    exact List.cons_ne_nil _ _
  · rw [if_neg hneg]
    exact natToDigitChars_ne_nil _

theorem intToDecimalStr_data_lt128 (ts : Int) :
    ∀ c ∈ (intToDecimalStr ts).data, c.toNat < 128 := by
  intro c hc
  unfold intToDecimalStr at hc
  by_cases hneg : ts < 0
  · rw [if_pos hneg] at hc
    rcases List.mem_cons.mp hc with rfl | hc2
    · rw [charToNat_ofNat 45 (by omega)]
      omega
    · have := natToDigitChars_bounds _ c hc2
      omega
  · rw [if_neg hneg] at hc
    have := natToDigitChars_bounds _ c hc
    omega

theorem decodeTokenTs_encodeTokenTs (ts : Int) :
    decodeTokenTs (encodeTokenTs ts) = some ts := by
  have hlt := intToDecimalStr_data_lt128 ts
  have hmapcs : ((intToDecimalStr ts).data.map Char.toNat).map Char.ofNat
      = (intToDecimalStr ts).data := by
    rw [List.map_map]
    have hcomp : (Char.ofNat ∘ Char.toNat) = (id : Char → Char) := by
      funext c
      exact Char.ofNat_toNat c
    rw [hcomp, List.map_id]
  have hall : ((intToDecimalStr ts).data.map Char.toNat).all (fun b => b < 128) = true := by
    rw [List.all_eq_true]
    intro b hb
    simp only [List.mem_map] at hb
    obtain ⟨c, hc, rfl⟩ := hb
    exact decide_eq_true (hlt c hc)
  unfold decodeTokenTs encodeTokenTs
  rw [b64decodeStr_b64encodeStr _ (fun c hc => by have := hlt c hc; omega)]
  simp only [Option.some_bind]
  unfold bytesToUtf8Str
  rw [if_pos hall]
  simp only [Option.some_bind]
  rw [hmapcs]
  exact pyInt_intToDecimalStr ts

theorem b64encodeBytes_ne_nil : ∀ bs : List Nat, bs ≠ [] → b64encodeBytes bs ≠ [] := by
  intro bs h
  match bs with
  | [] => exact absurd rfl h
  | [x] => simp [b64encodeBytes]
  | [x, y] => simp [b64encodeBytes]
  | x :: y :: z :: rest => simp [b64encodeBytes]

theorem encodeTokenTs_ne_empty (ts : Int) : encodeTokenTs ts ≠ "" := by
  intro hcontra
  refine b64encodeBytes_ne_nil ((intToDecimalStr ts).data.map Char.toNat) ?_ ?_
  · intro hmapnil
    exact intToDecimalStr_data_ne_nil ts (by rwa [List.map_eq_nil_iff] at hmapnil)
  · exact congrArg String.data hcontra

/-- C7 (code bug): `update_status` never returns a boolean — for every
table, session id and status value the call raises TypeError, because
the `Database.execute` wrapper returns None and `update_status` then
evaluates `None > 0`.  This holds whether or not a session with the
given id exists. -/
theorem claim_C7_update_status_always_raises
    (rows : List SessionRow) (sid status : String) :
    SessionRepository.update_status rows sid status = .error "TypeError" := rfl

/-- C6 counterexample: the page token "aGVsbG8=" (base64 of "hello") is
well-formed base64 but does not decode to an integer timestamp; the
claim says `list_all` should then not raise and behave as if no token
was supplied, yet the call raises ValueError — and it does not behave
like the no-token call either, which raises TypeError at the row fetch
(`fetch_all` arity mismatch) instead of returning a page. -/
theorem claim_C6_invalid_token_counterexample :
    SessionRepository.list_all [⟨"a", 5, "", "active"⟩] 10 (some "aGVsbG8=")
        = .error "ValueError"
    ∧ SessionRepository.list_all [⟨"a", 5, "", "active"⟩] 10 none
        = .error "TypeError" :=
  ⟨rfl, rfl⟩

/-- C6 (amended): a non-empty page token whose base64/int decoding fails
makes `list_all` raise ValueError — the exception propagates; there is
no fall back to the first page. -/
theorem claim_C6_invalid_token_raises (rows : List SessionRow) (p : Nat) (tok : String)
    (hne : tok ≠ "") (hdec : decodeTokenTs tok = none) :
    SessionRepository.list_all rows p (some tok) = .error "ValueError" := by
  unfold SessionRepository.list_all
  simp [hne, hdec]

/-- C6 witness: the "aGVsbG8=" token against a one-row table. -/
theorem claim_C6_invalid_token_raises_witness :
    ("aGVsbG8=" ≠ "" ∧ decodeTokenTs "aGVsbG8=" = none)
    ∧ SessionRepository.list_all [⟨"a", 5, "", "active"⟩] 10 (some "aGVsbG8=")
        = .error "ValueError" :=
  ⟨⟨by decide, by decide⟩,
   claim_C6_invalid_token_raises [⟨"a", 5, "", "active"⟩] 10 "aGVsbG8="
     (by decide) (by decide)⟩

/-- C2 (code bug): pagination can never yield a session.  Every
`list_all` call that reaches the row fetch raises TypeError, because
the staged `Database.fetch_all` takes only the query while `list_all`
passes `(query, values)`: this holds with no token (the first call of
the claim's pagination loop), with an empty-string (falsy) token, and
with any token that decodes to a cursor timestamp.  Consequently the
claim's repeated-call protocol fails on its very first call and yields
no session at all, whatever is stored and whatever the page size. -/
theorem claim_C2_pagination_fetch_raises (rows : List SessionRow) (p : Nat)
    (t : String) :
    SessionRepository.list_all rows p none = .error "TypeError"
    ∧ SessionRepository.list_all rows p (some "") = .error "TypeError"
    ∧ (∀ ts : Int, decodeTokenTs t = some ts →
        SessionRepository.list_all rows p (some t) = .error "TypeError")
    ∧ SessionRepository.paginateAll rows p = [] := by
  refine ⟨rfl, rfl, ?_, rfl⟩
  intro ts hts
  by_cases ht : t = ""
  · subst ht
    rfl
  · simp only [SessionRepository.list_all]
    rw [if_neg ht]
    simp only [hts]
    rfl

/-- C2 witness: the token "NQ==" (base64 of "5") decodes to the cursor
timestamp 5, and the call still raises TypeError at the fetch. -/
theorem claim_C2_pagination_fetch_raises_witness :
    decodeTokenTs "NQ==" = some 5
    ∧ SessionRepository.list_all [⟨"a", 5, "", "active"⟩] 2 (some "NQ==")
        = .error "TypeError" :=
  ⟨by decide,
   (claim_C2_pagination_fetch_raises [⟨"a", 5, "", "active"⟩] 2 "NQ==").2.2.1 5
     (by decide)⟩

end AdkSim
